import Mathlib

/-!
Verification of the vidsorter media organizer (`src/vidsorter/cli.py`).

The Python source is shallowly embedded: pure string functions become Lean
functions on `String`/`List Char`, the per-file processing loop of
`process_media_files` becomes a fold over the discovered file list, and the
external effects (the yt-dlp metadata lookup, `mkdir`, `shutil.move`) are
driven by explicit oracles collected in an `Env` record, with the filesystem
made explicit as an `FSState` value.
-/

/-- `SUPPORTED_FORMATS["video"]` from the source. -/
def SUPPORTED_VIDEO : List String :=
  [".mp4", ".mkv", ".avi", ".mov", ".wmv", ".flv", ".webm", ".m4v", ".3gp", ".ogv"]

/-- `SUPPORTED_FORMATS["audio"]` from the source. -/
def SUPPORTED_AUDIO : List String :=
  [".mp3", ".m4a", ".wav", ".flac", ".ogg", ".aac", ".opus", ".wma"]

/-- `ALL_FORMATS` from the source (a Python set; all entries are distinct,
so a list is a faithful rendering). -/
def ALL_FORMATS : List String := SUPPORTED_VIDEO ++ SUPPORTED_AUDIO

/-- A character matched by the regex class `[a-zA-Z0-9_-]` in
`extract_video_id` under `re.IGNORECASE` without `re.ASCII`: CPython
documents that the Unicode ranges `[a-z]`/`[A-Z]` with `IGNORECASE` match the
52 ASCII letters and four additional characters — `İ` (U+0130), `ı` (U+0131),
`ſ` (U+017F) and the Kelvin sign `K` (U+212A) — so the class accepts the
ASCII letters, digits, underscore, hyphen, and those four. -/
def isIdChar (c : Char) : Bool :=
  c.isAlphanum || c == '_' || c == '-' ||
    c.toNat == 0x130 || c.toNat == 0x131 || c.toNat == 0x17F || c.toNat == 0x212A

/-- CPython's case folding for matching an input character against the
lower-case ASCII extension literals under Unicode `re.IGNORECASE`: the regex
engine lowers the input with the simple (single-character) Unicode lowercase
map — which sends `İ` (U+0130) to `i` and the Kelvin sign `K` (U+212A) to
`k` — and its extra-cases table additionally lets a literal `i` match `ı`
(U+0131) and a literal `s` match `ſ` (U+017F).  Folding the input with this
function and comparing with the lower-case ASCII extension is therefore
exactly the engine's test: no other non-ASCII character lowers into ASCII. -/
def pyFold (c : Char) : Char :=
  if c.toNat == 0x130 then 'i'
  else if c.toNat == 0x131 then 'i'
  else if c.toNat == 0x17F then 's'
  else if c.toNat == 0x212A then 'k'
  else c.toLower

/-- The bracket part of the `extract_video_id` regex: checks that `body` ends
with `[` + eleven `isIdChar` characters + `]`, and returns those eleven
characters.  Works on the reversed list so that the check is anchored at the
end, exactly as the regex `.*\[([a-zA-Z0-9_-]{11})\]` is anchored by the
extension and `$` that follow it. -/
def checkBracket (body : List Char) : Option (List Char) :=
  match body.reverse with
  | [] => none
  | c :: rest =>
    if c = ']' then
      match rest.drop 11 with
      | [] => none
      | d :: _ =>
        if d = '[' then
          if (rest.take 11).length = 11 ∧ (rest.take 11).all isIdChar = true then
            some (rest.take 11).reverse
          else none
        else none
    else none

/-- Core of `extract_video_id`: the regex
`.*\[([a-zA-Z0-9_-]{11})\]\.(mp4|mkv|...)$` applied with `re.search` and
`re.IGNORECASE`, matching at the very end of the character list `cs`.
Because the pattern is anchored at the end and no configured extension is a
suffix of another (a finite check, `ALL_FORMATS_no_suffix` below), at most one
alternative of the extension alternation can match, so the regex search
succeeds exactly when some extension (case-folded per `pyFold`, CPython's
Unicode `IGNORECASE` behavior) is a suffix of `cs` and the bracketed
identifier sits immediately before it.  The greedy `.*` makes the prefix
arbitrary. -/
def extractCoreL (cs : List Char) : Option (List Char) :=
  match ALL_FORMATS.find? (fun ext => ext.data.isSuffixOf (cs.map pyFold)) with
  | some ext => checkBracket (cs.take (cs.length - ext.data.length))
  | none => none

/-- `extract_video_id` from the source.  Python's `$` (without `re.MULTILINE`)
matches at the end of the string and also just before a newline that is the
last character, hence the second branch. -/
def extract_video_id (s : String) : Option String :=
  match extractCoreL s.data with
  | some idc => some (String.mk idc)
  | none =>
    if s.data.getLast? = some '\n' then Option.map String.mk (extractCoreL s.data.dropLast)
    else none

/-- A character of the regex class `[<>:"/\\|?*]` replaced by
`sanitize_directory_name`. -/
def isForbiddenChar (c : Char) : Bool :=
  c == '<' || c == '>' || c == ':' || c == '"' || c == '/' || c == '\\' ||
    c == '|' || c == '?' || c == '*'

/-- The substitution `re.sub(r'[<>:"/\\|?*]', "_", ·)` applied to one character. -/
def replaceChar (c : Char) : Char :=
  if isForbiddenChar c then '_' else c

/-- A character stripped by `.strip(". ")`. -/
def isStripChar (c : Char) : Bool :=
  c == '.' || c == ' '

/-- Python's `str.strip(". ")`: remove leading and trailing `.` and space
characters. -/
def stripPy (l : List Char) : List Char :=
  List.rdropWhile isStripChar (l.dropWhile isStripChar)

/-- `sanitize_directory_name` from the source. -/
def sanitize_directory_name (name : String) : String :=
  let t := stripPy (name.data.map replaceChar)
  if t = [] then "Unknown_Channel" else String.mk t

/-- Python `PurePath.suffix`/`.stem` for a bare filename: split at the last
dot, provided that dot is neither the first nor the last character; otherwise
the suffix is empty.  Mirrors CPython's
`i = name.rfind('.'); if 0 < i < len(name) - 1: ...`. -/
def pathSplit (name : String) : String × String :=
  match name.data.reverse.findIdx? (fun c => c == '.') with
  | none => (name, "")
  | some j =>
    let n := name.data.length
    let i := n - 1 - j
    if 0 < i ∧ i < n - 1 then (String.mk (name.data.take i), String.mk (name.data.drop i))
    else (name, "")

/-- The sequence of destination filenames tried by
`move_file_to_channel_directory`: first the original name, then
`{stem}_{counter}{suffix}` for `counter = 1, 2, ...`. -/
def destCandidate (name : String) : Nat → String
  | 0 => name
  | k + 1 => (pathSplit name).1 ++ "_" ++ Nat.repr (k + 1) ++ (pathSplit name).2

/-- The `while destination.exists()` loop of `move_file_to_channel_directory`,
given the filesystem-existence oracle `ex` for paths inside the target
directory: the first candidate on which `ex` is false.  The hypothesis `h`
records that the source's loop terminates (some candidate is free). -/
def findDestination (ex : String → Bool) (name : String)
    (h : ∃ k, ex (destCandidate name k) = false) : String :=
  destCandidate name (Nat.find h)

/-- An entry of `MediaOrganizerStats.errors` (the `datetime.now()` timestamp,
pure presentation, is not modelled). -/
structure ErrorRecord where
  filename : String
  error_type : String
  details : String
deriving DecidableEq

/-- `MediaOrganizerStats` from the source (`start_time`, again a timestamp, is
not modelled; `channels_created` is a Python set). -/
structure MediaOrganizerStats where
  total_files : Nat := 0
  processed_files : Nat := 0
  failed_files : Nat := 0
  video_files : Nat := 0
  audio_files : Nat := 0
  channels_created : Finset String := ∅
  errors : List ErrorRecord := []
deriving DecidableEq

/-- `MediaOrganizerStats.add_error` from the source. -/
def MediaOrganizerStats.add_error (s : MediaOrganizerStats)
    (filename error_type details : String) : MediaOrganizerStats :=
  { s with errors := s.errors ++ [⟨filename, error_type, details⟩] }

/-- `MediaOrganizerStats.add_channel` from the source. -/
def MediaOrganizerStats.add_channel (s : MediaOrganizerStats)
    (channel_name : String) : MediaOrganizerStats :=
  { s with channels_created := insert channel_name s.channels_created }

/-- `MediaOrganizerStats.increment_processed` from the source. -/
def MediaOrganizerStats.increment_processed (s : MediaOrganizerStats) : MediaOrganizerStats :=
  { s with processed_files := s.processed_files + 1 }

/-- `MediaOrganizerStats.increment_failed` from the source. -/
def MediaOrganizerStats.increment_failed (s : MediaOrganizerStats) : MediaOrganizerStats :=
  { s with failed_files := s.failed_files + 1 }

/-- `get_file_type` from the source: classify by the lower-cased extension. -/
def get_file_type (name : String) : String :=
  let ext := String.mk ((pathSplit name).2.data.map Char.toLower)
  if ext ∈ SUPPORTED_VIDEO then "video"
  else if ext ∈ SUPPORTED_AUDIO then "audio"
  else "unknown"

/-- The scan root and the per-channel directories, made explicit.
`rootFiles` are the regular files of the scan root, `dirs` the channel
directories created so far, and `dirFiles` the files inside channel
directories as `(directory, filename)` pairs. -/
structure FSState where
  rootFiles : List String
  dirs : List String
  dirFiles : List (String × String)
deriving DecidableEq

/-- True when the glob pattern `*{pat}` of `Path.glob` matches `name`:
`name` ends with `pat` and is not a hidden file (glob's `*` never matches a
leading dot). -/
def globMatches (name pat : String) : Bool :=
  (match name.data with
   | '.' :: _ => false
   | _ => true) &&
  pat.data.isSuffixOf name.data

/-- Whether some configured extension's glob pattern `*{ext}` or `*{EXT}`
matches the entry name `n`. -/
def matchesMediaGlob (n : String) : Bool :=
  ALL_FORMATS.any (fun ext =>
    globMatches n ext || globMatches n (String.mk (ext.data.map Char.toUpper)))

/-- `find_media_files` from the source: for every configured extension, glob
`*{ext}` and `*{EXT}` over the scan root (non-recursive), then de-duplicate
with `list(set(...))`.  `Path.glob` matches entries by name only, so the
channel directories that live under the scan root are candidates exactly like
the regular files — a directory whose name ends in a configured extension is
discovered too. -/
def find_media_files (fs : FSState) : List String :=
  ((fs.rootFiles ++ fs.dirs).filter matchesMediaGlob).dedup

/-- The results of the external collaborators and of the fallible filesystem
calls, per file: `metadata vid` is what `get_youtube_metadata` returns for a
video id (`none` models both a `None` return and a lookup exception),
`dirCreateOk d` is whether `mkdir` succeeds for the sanitized directory name
`d`, and `moveOk f` is whether `shutil.move` succeeds for source file `f`. -/
structure Env where
  metadata : String → Option String
  dirCreateOk : String → Bool
  moveOk : String → Bool

/-- Bounded rendering of the `while destination.exists()` loop used inside the
filesystem-level run: with fuel exceeding the number of files in the target
directory the loop always reaches a free candidate, because distinct counters
give distinct candidate names. -/
def resolveDestFuel (ex : String → Bool) (name : String) : Nat → Nat → String
  | 0, k => destCandidate name k
  | fuel + 1, k =>
    if ex (destCandidate name k) then resolveDestFuel ex name fuel (k + 1)
    else destCandidate name k

/-- `create_channel_directory` from the source, filesystem part: `mkdir` with
`exist_ok=True` (idempotent creation) for the already-sanitized name.  Whether
the call succeeds at all is decided by `Env.dirCreateOk` at the call site. -/
def create_channel_directory (fs : FSState) (sanitized : String) : FSState :=
  if sanitized ∈ fs.dirs then fs else { fs with dirs := fs.dirs ++ [sanitized] }

/-- `move_file_to_channel_directory` from the source, filesystem part: resolve
a collision-free destination inside `dir` and move `fname` there.  Whether
`shutil.move` succeeds at all is decided by `Env.moveOk` at the call site.
The moved entry is modelled as a regular file of the scan root (removed from
`rootFiles`); a discovered directory whose name also carries a valid
bracketed id would be relocated by `shutil.move` as well, which this shallow
state does not track — no theorem below reaches that corner. -/
def move_file_to_channel_directory (fs : FSState) (dir fname : String) : FSState :=
  let dest := resolveDestFuel (fun c => fs.dirFiles.contains (dir, c)) fname
    (fs.dirFiles.length + 1) 0
  { fs with rootFiles := fs.rootFiles.erase fname
            dirFiles := fs.dirFiles ++ [(dir, dest)] }

/-- The body of the `for media_file in media_files` loop of
`process_media_files` (lines 446-499 of the source), for one file `name`:
extract the video id, fetch metadata (a `None` result or an empty channel
name is falsy in Python, hence the `isEmpty` test), create the channel
directory, register the channel, and move the file.  Each failure appends the
error record and increments the failed counter that the source appends and
increments at that point. -/
def fsProcessOne (env : Env) (st : MediaOrganizerStats × FSState) (name : String) :
    MediaOrganizerStats × FSState :=
  let stats := st.1
  let fs := st.2
  match extract_video_id name with
  | none =>
    ((stats.add_error name "ID_EXTRACTION_FAILED"
        "Could not extract video ID from filename").increment_failed, fs)
  | some vid =>
    match env.metadata vid with
    | none =>
      ((stats.add_error name "METADATA_FETCH_FAILED"
          "Could not fetch channel metadata").increment_failed, fs)
    | some ch =>
      if ch.isEmpty then
        ((stats.add_error name "METADATA_FETCH_FAILED"
            "Could not fetch channel metadata").increment_failed, fs)
      else
        if env.dirCreateOk (sanitize_directory_name ch) then
          let fs2 := create_channel_directory fs (sanitize_directory_name ch)
          let stats2 := stats.add_channel ch
          if env.moveOk name then
            (stats2.increment_processed,
              move_file_to_channel_directory fs2 (sanitize_directory_name ch) name)
          else
            ((stats2.add_error name "FILE_MOVE_FAILED"
                "Could not move file to channel directory").increment_failed, fs2)
        else
          ((stats.add_error name "DIRECTORY_CREATION_FAILED"
              "Could not create channel directory").increment_failed, fs)

/-- The statistics set up before the loop of `process_media_files`:
`total_files` and the per-kind counts of the discovered files. -/
def startStats (files : List String) : MediaOrganizerStats :=
  { total_files := files.length
    video_files := files.countP (fun f => get_file_type f == "video")
    audio_files := files.countP (fun f => get_file_type f == "audio") }

/-- The processing loop of `process_media_files` run over `files` from state
`st`. -/
def fsRunFrom (env : Env) (st : MediaOrganizerStats × FSState) (files : List String) :
    MediaOrganizerStats × FSState :=
  files.foldl (fsProcessOne env) st

/-- `process_media_files` from the source: discover the media files of the
scan root, return immediately with untouched statistics when there are none,
otherwise initialize the statistics and process every discovered file. -/
def process_media_files (env : Env) (fs0 : FSState) : MediaOrganizerStats × FSState :=
  let files := find_media_files fs0
  if files.isEmpty then ({}, fs0)
  else fsRunFrom env (startStats files, fs0) files

/-- The statistics after the first `k` files of the run, i.e. the intermediate
state of the loop of `process_media_files`. -/
def partialStats (env : Env) (fs0 : FSState) (k : Nat) : MediaOrganizerStats :=
  (fsRunFrom env (startStats (find_media_files fs0), fs0)
    ((find_media_files fs0).take k)).1

/-- The oracle of a directory that already contains `a.mp4` and `a_1.mp4`
(the worked example of the specification). -/
def exampleOracle : String → Bool := fun s => s == "a.mp4" || s == "a_1.mp4"

/-- The shape the specification describes for `extract_video_id`: the
filename is anything, then `[`, then the eleven-character identifier `idc`
(characters of `isIdChar`), then `]`, then a dot and a configured extension
matched case-insensitively with CPython's Unicode `IGNORECASE` folding
(`pyFold`), at the end of the string. -/
def ShapeL (cs idc : List Char) : Prop :=
  ∃ pre ext extRaw, ext ∈ ALL_FORMATS ∧
    cs = pre ++ ('[' :: idc) ++ (']' :: extRaw) ∧
    extRaw.map pyFold = ext.data ∧
    idc.length = 11 ∧ idc.all isIdChar = true

/-- The five terminal outcomes a file can reach in the loop body of
`process_media_files`, determined by the oracles alone. -/
inductive FileOutcome where
  | idFail : FileOutcome
  | metaFail : FileOutcome
  | dirFail : FileOutcome
  | moveFail (ch : String) : FileOutcome
  | moved (ch : String) : FileOutcome
deriving DecidableEq

/-- Which terminal outcome the file `name` reaches under `env`. -/
def fileOutcome (env : Env) (name : String) : FileOutcome :=
  match extract_video_id name with
  | none => FileOutcome.idFail
  | some vid =>
    match env.metadata vid with
    | none => FileOutcome.metaFail
    | some ch =>
      if ch.isEmpty then FileOutcome.metaFail
      else if env.dirCreateOk (sanitize_directory_name ch) then
        (if env.moveOk name then FileOutcome.moved ch else FileOutcome.moveFail ch)
      else FileOutcome.dirFail

/-- The effect of one loop iteration expressed by outcome. -/
def applyOutcome (o : FileOutcome) (st : MediaOrganizerStats × FSState) (name : String) :
    MediaOrganizerStats × FSState :=
  match o with
  | FileOutcome.idFail =>
    ((st.1.add_error name "ID_EXTRACTION_FAILED"
        "Could not extract video ID from filename").increment_failed, st.2)
  | FileOutcome.metaFail =>
    ((st.1.add_error name "METADATA_FETCH_FAILED"
        "Could not fetch channel metadata").increment_failed, st.2)
  | FileOutcome.dirFail =>
    ((st.1.add_error name "DIRECTORY_CREATION_FAILED"
        "Could not create channel directory").increment_failed, st.2)
  | FileOutcome.moveFail ch =>
    (((st.1.add_channel ch).add_error name "FILE_MOVE_FAILED"
        "Could not move file to channel directory").increment_failed,
      create_channel_directory st.2 (sanitize_directory_name ch))
  | FileOutcome.moved ch =>
    ((st.1.add_channel ch).increment_processed,
      move_file_to_channel_directory
        (create_channel_directory st.2 (sanitize_directory_name ch))
        (sanitize_directory_name ch) name)

/-- The error-kind strings the code actually appends. -/
def errorKinds : List String :=
  ["ID_EXTRACTION_FAILED", "METADATA_FETCH_FAILED",
    "DIRECTORY_CREATION_FAILED", "FILE_MOVE_FAILED"]

/-- A scan root with a single media file carrying a valid video id. -/
def fsA : FSState := ⟨["vid [dQw4w9WgXcQ].mp4"], [], []⟩

/-- Oracles under which directory creation fails for every name. -/
def envDirFail : Env := ⟨fun _ => some "Chan", fun _ => false, fun _ => true⟩

/-- Oracles under which the metadata lookup always fails while everything
else succeeds. -/
def envMetaFail : Env := ⟨fun _ => none, fun _ => true, fun _ => true⟩

/-- Oracles under which the move always fails while everything else
succeeds. -/
def envMoveFail : Env := ⟨fun _ => some "Chan A", fun _ => true, fun _ => false⟩

/-- Modelled from the spec: a dry-run mode is absent from `src` (the source
file has no command-line flags), so this definition follows the
specification's words — in dry-run mode the engine runs the same per-file
pipeline (extract the id, resolve the owner) but "record[s] the planned move
and report[s] `Succeeded` without mutating the filesystem": no directory is
created and no file is moved. -/
def fsProcessOneDry (env : Env) (st : MediaOrganizerStats × FSState) (name : String) :
    MediaOrganizerStats × FSState :=
  match extract_video_id name with
  | none =>
    ((st.1.add_error name "ID_EXTRACTION_FAILED"
        "Could not extract video ID from filename").increment_failed, st.2)
  | some vid =>
    match env.metadata vid with
    | none =>
      ((st.1.add_error name "METADATA_FETCH_FAILED"
          "Could not fetch channel metadata").increment_failed, st.2)
    | some ch =>
      if ch.isEmpty then
        ((st.1.add_error name "METADATA_FETCH_FAILED"
            "Could not fetch channel metadata").increment_failed, st.2)
      else ((st.1.add_channel ch).increment_processed, st.2)

/-- Modelled from the spec: `process_media_files` invoked with the dry-run
flag — the same discovery and statistics setup, with the dry-run engine for
every file. -/
def process_media_files_dry (env : Env) (fs0 : FSState) : MediaOrganizerStats × FSState :=
  let files := find_media_files fs0
  if files.isEmpty then ({}, fs0)
  else files.foldl (fsProcessOneDry env) (startStats files, fs0)

/-- Whether a file would reach the move stage (and hence be moved by a real
run whose filesystem calls succeed): the id extracts and the owner
resolves. -/
def fileWouldMove (env : Env) (name : String) : Bool :=
  match extract_video_id name with
  | none => false
  | some vid =>
    match env.metadata vid with
    | none => false
    | some ch => !ch.isEmpty

example : sanitize_directory_name "Author / Name?" = "Author _ Name_" := by decide

example : sanitize_directory_name "..." = "Unknown_Channel" := by decide

example : extract_video_id "My Video [dQw4w9WgXcQ].mp4" = some "dQw4w9WgXcQ" := by decide

example : extract_video_id "My Video.mp4" = none := by decide

example : extract_video_id "clip[short].mp4" = none := by decide

example : extract_video_id "a[bbbbbbbbbbb].x[ccccccccccc].MP4" = some "ccccccccccc" := by decide

example : pathSplit "a.mp4" = ("a", ".mp4") := by decide

example : pathSplit "a.b.mp4" = ("a.b", ".mp4") := by decide

example : pathSplit ".bashrc" = (".bashrc", "") := by decide

example : pathSplit "noext" = ("noext", "") := by decide

/-- Claim C2: given the filesystem-existence oracle `ex` and the desired
filename, destination resolution returns the first candidate among the
desired filename itself, then `stem_1.ext`, `stem_2.ext`, ... on which the
oracle is false; in particular the returned path does not currently exist. -/
theorem findDestination_spec (ex : String → Bool) (name : String)
    (h : ∃ k, ex (destCandidate name k) = false) :
    ∃ k, findDestination ex name h = destCandidate name k ∧
      ex (destCandidate name k) = false ∧
      ∀ j < k, ex (destCandidate name j) = true := by
  refine ⟨Nat.find h, rfl, Nat.find_spec h, ?_⟩
  intro j hj
  cases hb : ex (destCandidate name j) with
  | false => exact absurd hb (Nat.find_min h hj)
  | true => rfl

/-- Witness for `findDestination_spec` at the specification's example. -/
theorem findDestination_spec_witness :
    (∃ k, exampleOracle (destCandidate "a.mp4" k) = false) ∧
    (∃ k, findDestination exampleOracle "a.mp4" ⟨2, by decide⟩ = destCandidate "a.mp4" k ∧
      exampleOracle (destCandidate "a.mp4" k) = false ∧
      ∀ j < k, exampleOracle (destCandidate "a.mp4" j) = true) :=
  ⟨⟨2, by decide⟩, findDestination_spec exampleOracle "a.mp4" ⟨2, by decide⟩⟩

theorem replaceChar_idem (c : Char) : replaceChar (replaceChar c) = replaceChar c := by
  by_cases h : isForbiddenChar c = true
  · have h1 : replaceChar c = '_' := by simp [replaceChar, h]
    rw [h1]
    decide
  · have h1 : replaceChar c = c := by simp [replaceChar, h]
    rw [h1]
    exact h1

theorem mem_stripPy {c : Char} {l : List Char} (h : c ∈ stripPy l) : c ∈ l := by
  unfold stripPy List.rdropWhile at h
  rw [List.mem_reverse] at h
  have h2 := (List.dropWhile_sublist (l := (l.dropWhile isStripChar).reverse) isStripChar).mem h
  rw [List.mem_reverse] at h2
  exact (List.dropWhile_sublist isStripChar).mem h2

theorem stripPy_stripPy (l : List Char) : stripPy (stripPy l) = stripPy l := by
  unfold stripPy
  have hdw : List.dropWhile isStripChar
      (List.rdropWhile isStripChar (l.dropWhile isStripChar)) =
      List.rdropWhile isStripChar (l.dropWhile isStripChar) := by
    rcases hra : List.rdropWhile isStripChar (l.dropWhile isStripChar) with _ | ⟨x, xs⟩
    · simp
    · obtain ⟨t, ht⟩ := List.rdropWhile_prefix isStripChar (l.dropWhile isStripChar)
      rw [hra] at ht
      have hax : l.dropWhile isStripChar = x :: (xs ++ t) := by
        rw [← ht]; simp
      have hpx : isStripChar x = false := by
        by_contra hpx
        have hpx' : isStripChar x = true := by
          cases hb : isStripChar x
          · exact absurd hb hpx
          · rfl
        have h1 : List.dropWhile isStripChar (l.dropWhile isStripChar) =
            l.dropWhile isStripChar := List.dropWhile_idempotent _ _
        rw [hax, List.dropWhile_cons, if_pos hpx'] at h1
        have h2 : (List.dropWhile isStripChar (xs ++ t)).length ≤ (xs ++ t).length :=
          (List.dropWhile_sublist isStripChar).length_le
        rw [h1] at h2
        simp at h2
      rw [List.dropWhile_cons, hpx]
      simp
  rw [hdw, List.rdropWhile_idempotent]

theorem dataMk (l : List Char) : (String.mk l).data = l := rfl

theorem sanitize_eq (x : String) :
    sanitize_directory_name x =
      if stripPy (x.data.map replaceChar) = [] then "Unknown_Channel"
      else String.mk (stripPy (x.data.map replaceChar)) := rfl

theorem map_replaceChar_stripPy (l : List Char) :
    (stripPy (l.map replaceChar)).map replaceChar = stripPy (l.map replaceChar) := by
  have h : ∀ c ∈ stripPy (l.map replaceChar), replaceChar c = c := by
    intro c hc
    have hc2 : c ∈ l.map replaceChar := mem_stripPy hc
    obtain ⟨y, _, hy⟩ := List.mem_map.mp hc2
    rw [← hy]
    exact replaceChar_idem y
  calc (stripPy (l.map replaceChar)).map replaceChar
      = (stripPy (l.map replaceChar)).map id := List.map_congr_left h
    _ = stripPy (l.map replaceChar) := List.map_id _

/-- Claim C5: `sanitize_directory_name` is idempotent, and its result is
never the empty string. -/
theorem sanitize_idempotent (x : String) :
    sanitize_directory_name (sanitize_directory_name x) = sanitize_directory_name x ∧
    sanitize_directory_name x ≠ "" := by
  by_cases h : stripPy (x.data.map replaceChar) = []
  · rw [sanitize_eq x, if_pos h]
    exact ⟨by decide, by decide⟩
  · rw [sanitize_eq x, if_neg h]
    constructor
    · rw [sanitize_eq (String.mk (stripPy (x.data.map replaceChar)))]
      rw [dataMk, map_replaceChar_stripPy, stripPy_stripPy, if_neg h]
    · intro heq
      exact h (congrArg String.data heq)

/-- No configured extension is a suffix of another: the extension alternation
of the regex can match in at most one way at the end of the string. -/
theorem fmt_suffix_eq :
    ∀ a ∈ ALL_FORMATS, ∀ b ∈ ALL_FORMATS, a.data.isSuffixOf b.data = true → a = b := by
  decide

theorem ALL_FORMATS_data_ne_nil : ∀ a ∈ ALL_FORMATS, a.data ≠ [] := by decide

theorem ALL_FORMATS_getLast : ∀ a ∈ ALL_FORMATS, a.data.getLast? ≠ some '\n' := by decide

theorem checkBracket_spec (body idc : List Char) :
    checkBracket body = some idc ↔
      ∃ pre, body = pre ++ ('[' :: idc) ++ [']'] ∧
        idc.length = 11 ∧ idc.all isIdChar = true := by
  constructor
  · intro h
    unfold checkBracket at h
    split at h
    · exact absurd h (by simp)
    next c rest hrev =>
      split at h
      case isTrue hc =>
        split at h
        · exact absurd h (by simp)
        next d tail hdrop =>
          split at h
          case isTrue hd =>
            split at h
            case isTrue hcond =>
              obtain ⟨hlen, hall⟩ := hcond
              have hid : idc = (rest.take 11).reverse := (Option.some.inj h).symm
              have hb : body = rest.reverse ++ [c] := by
                have h2 := congrArg List.reverse hrev
                simpa using h2
              refine ⟨tail.reverse, ?_, by rw [hid]; simp [hlen], by
                rw [hid, List.all_reverse]; exact hall⟩
              have hrest : rest.take 11 ++ rest.drop 11 = rest := List.take_append_drop _ _
              rw [hid, hb, hc]
              conv_lhs => rw [← hrest, hdrop, hd]
              simp
            case isFalse => exact absurd h (by simp)
          case isFalse => exact absurd h (by simp)
      case isFalse => exact absurd h (by simp)
  · rintro ⟨pre, hbody, hlen, hall⟩
    subst hbody
    unfold checkBracket
    split
    next heq =>
      exfalso
      have h2 := congrArg List.length heq
      simp at h2
    next c rest heq =>
      have h3 : (pre ++ ('[' :: idc) ++ [']']).reverse =
          ']' :: (idc.reverse ++ ('[' :: pre.reverse)) := by
        simp
      rw [heq] at h3
      obtain ⟨hc, hrest⟩ := List.cons.inj h3
      subst hc
      subst hrest
      rw [if_pos rfl]
      have hdrop : (idc.reverse ++ ('[' :: pre.reverse)).drop 11 = '[' :: pre.reverse :=
        List.drop_left' (by simp [hlen])
      have htake : (idc.reverse ++ ('[' :: pre.reverse)).take 11 = idc.reverse :=
        List.take_left' (by simp [hlen])
      rw [hdrop, htake]
      split
      next heq2 => exact absurd heq2 (by simp)
      next d tail heq2 =>
        obtain ⟨hd, _⟩ := List.cons.inj heq2
        rw [if_pos hd.symm]
        rw [if_pos ⟨by simp [hlen], by rw [List.all_reverse]; exact hall⟩]
        simp

theorem extractCoreL_spec (cs idc : List Char) :
    extractCoreL cs = some idc ↔ ShapeL cs idc := by
  constructor
  · intro h
    unfold extractCoreL at h
    split at h
    case h_2 => exact absurd h (by simp)
    case h_1 ext hfind =>
      have hmem := List.mem_of_find?_eq_some hfind
      have hpred := List.find?_some hfind
      obtain ⟨t, ht⟩ := List.isSuffixOf_iff_suffix.mp hpred
      have hk : ext.data.length ≤ cs.length := by
        have h2 := congrArg List.length ht
        rw [List.length_append, List.length_map] at h2
        omega
      obtain ⟨pre, hbody, hlen, hall⟩ := (checkBracket_spec _ _).mp h
      have hmap : (cs.drop (cs.length - ext.data.length)).map pyFold = ext.data := by
        have h1 : cs.map pyFold =
            (cs.take (cs.length - ext.data.length)).map pyFold ++
            (cs.drop (cs.length - ext.data.length)).map pyFold := by
          rw [← List.map_append, List.take_append_drop]
        have hlt : t.length = ((cs.take (cs.length - ext.data.length)).map pyFold).length := by
          have hl1 := congrArg List.length ht
          simp at hl1 ⊢
          omega
        exact (List.append_inj_right (ht.trans h1) hlt).symm
      refine ⟨pre, ext, cs.drop (cs.length - ext.data.length), hmem, ?_, hmap, hlen, hall⟩
      conv_lhs => rw [← List.take_append_drop (cs.length - ext.data.length) cs]
      rw [hbody]
      simp
  · rintro ⟨pre, ext, extRaw, hmem, hcs, hmap, hlen, hall⟩
    have hkraw : extRaw.length = ext.data.length := by
      rw [← hmap]
      simp
    have hsfx : ext.data.isSuffixOf (cs.map pyFold) = true := by
      rw [List.isSuffixOf_iff_suffix]
      refine ⟨(pre ++ ('[' :: idc) ++ [']']).map pyFold, ?_⟩
      rw [← hmap, ← List.map_append]
      congr 1
      rw [hcs]
      simp
    have hsome : (ALL_FORMATS.find?
        (fun e => e.data.isSuffixOf (cs.map pyFold))).isSome = true :=
      List.find?_isSome.mpr ⟨ext, hmem, hsfx⟩
    obtain ⟨ext₀, hfind⟩ := Option.isSome_iff_exists.mp hsome
    have hmem₀ := List.mem_of_find?_eq_some hfind
    have hpred₀ := List.find?_some hfind
    have hext : ext₀ = ext := by
      have hsfx₀ := List.isSuffixOf_iff_suffix.mp hpred₀
      have hsfx' := List.isSuffixOf_iff_suffix.mp hsfx
      rcases List.suffix_or_suffix_of_suffix hsfx₀ hsfx' with h1 | h1
      · exact fmt_suffix_eq ext₀ hmem₀ ext hmem (List.isSuffixOf_iff_suffix.mpr h1)
      · exact (fmt_suffix_eq ext hmem ext₀ hmem₀ (List.isSuffixOf_iff_suffix.mpr h1)).symm
    subst hext
    have hred : extractCoreL cs = checkBracket (cs.take (cs.length - ext₀.data.length)) := by
      unfold extractCoreL
      rw [hfind]
    rw [hred]
    apply (checkBracket_spec _ _).mpr
    refine ⟨pre, ?_, hlen, hall⟩
    have hcs' : cs = (pre ++ ('[' :: idc) ++ [']']) ++ extRaw := by
      rw [hcs]
      simp
    rw [hcs']
    have hlen2 : ((pre ++ ('[' :: idc) ++ [']']) ++ extRaw).length - ext₀.data.length =
        (pre ++ ('[' :: idc) ++ [']']).length := by
      simp [hkraw]
      omega
    rw [hlen2]
    exact List.take_left' rfl

theorem shapeL_getLast {cs idc : List Char} (h : ShapeL cs idc) :
    cs.getLast? ≠ some '\n' := by
  obtain ⟨pre, ext, extRaw, hmem, hcs, hmap, _, _⟩ := h
  have hne : extRaw ≠ [] := by
    intro he
    rw [he] at hmap
    exact ALL_FORMATS_data_ne_nil ext hmem hmap.symm
  rcases List.eq_nil_or_concat extRaw with he | ⟨l2, a, he⟩
  · exact absurd he hne
  intro hlast
  rw [List.concat_eq_append] at he
  have h1 : cs.getLast? = some a := by
    rw [hcs, he]
    rw [show pre ++ ('[' :: idc) ++ (']' :: (l2 ++ [a])) =
      (pre ++ ('[' :: idc) ++ (']' :: l2)) ++ [a] by simp]
    exact List.getLast?_concat _
  have ha : a = '\n' := by
    rw [h1] at hlast
    exact Option.some.inj hlast
  have h2 : ext.data.getLast? = some '\n' := by
    rw [← hmap, he, ha, List.map_append]
    have h3 : List.map pyFold ['\n'] = ['\n'] := rfl
    rw [h3, List.getLast?_concat]
  exact ALL_FORMATS_getLast ext hmem h2

theorem mk_data_eq (s : String) : String.mk s.data = s := rfl

/-- Claim C1 (amended): `extract_video_id` returns `some idStr` exactly when
the filename has the shape anything + `[` + eleven characters matched by
`[A-Za-z0-9_-]` under CPython's Unicode `IGNORECASE` (the ASCII letters,
digits, `_`, `-`, plus `İ`, `ı`, `ſ` and the Kelvin sign; `isIdChar`) + `]` +
`.` + configured extension matched case-insensitively with the same folding
(`pyFold`), at the end of the string — or when it has that shape just before
a single trailing newline (Python's `$` also matches there); the returned
identifier is the one adjacent to the extension. -/
theorem extract_video_id_spec (s idStr : String) :
    extract_video_id s = some idStr ↔
      (ShapeL s.data idStr.data ∨
        ∃ cs, s.data = cs ++ ['\n'] ∧ ShapeL cs idStr.data) := by
  unfold extract_video_id
  rcases h1 : extractCoreL s.data with _ | idc
  · show (if s.data.getLast? = some '\n'
        then Option.map String.mk (extractCoreL s.data.dropLast)
        else none) = some idStr ↔ _
    by_cases hl : s.data.getLast? = some '\n'
    · rw [if_pos hl]
      constructor
      · intro h2
        obtain ⟨idc, h3, h4⟩ := Option.map_eq_some'.mp h2
        have hidc : idc = idStr.data := by
          rw [← h4]
        right
        refine ⟨s.data.dropLast, ?_, ?_⟩
        · have hne : s.data ≠ [] := by
            intro he
            rw [he] at hl
            exact absurd hl (by simp)
          have h5 := List.dropLast_append_getLast hne
          have h6 := List.getLast?_eq_getLast s.data hne
          rw [h6] at hl
          rw [Option.some.inj hl] at h5
          exact h5.symm
        · rw [← hidc]
          exact (extractCoreL_spec _ _).mp h3
      · intro h2
        rcases h2 with hsh | ⟨cs, hcs, hsh⟩
        · exact absurd hl (shapeL_getLast hsh)
        · have hdrop : s.data.dropLast = cs := by
            rw [hcs]
            exact List.dropLast_concat
          rw [hdrop, (extractCoreL_spec cs idStr.data).mpr hsh]
          show some (String.mk idStr.data) = some idStr
          rw [mk_data_eq]
    · rw [if_neg hl]
      constructor
      · intro h2
        exact absurd h2 (by simp)
      · intro h2
        rcases h2 with hsh | ⟨cs, hcs, hsh⟩
        · have h3 := (extractCoreL_spec s.data idStr.data).mpr hsh
          rw [h1] at h3
          exact absurd h3 (by simp)
        · exfalso
          apply hl
          rw [hcs]
          exact List.getLast?_concat _
  · show some (String.mk idc) = some idStr ↔ _
    constructor
    · intro h2
      have hidc : idc = idStr.data := by
        have h3 := Option.some.inj h2
        rw [← h3]
      left
      rw [← hidc]
      exact (extractCoreL_spec _ _).mp h1
    · intro h2
      rcases h2 with hsh | ⟨cs, hcs, hsh⟩
      · have h3 := (extractCoreL_spec s.data idStr.data).mpr hsh
        rw [h1] at h3
        rw [Option.some.inj h3, mk_data_eq]
      · exfalso
        have hsh1 := (extractCoreL_spec s.data idc).mp h1
        apply shapeL_getLast hsh1
        rw [hcs]
        exact List.getLast?_concat _

/-- Counterexample to claim C1 as stated: the filename
`"vid [dQw4w9WgXcQ].mp4\n"` does not have the claimed suffix shape at the end
of the string (it ends with a newline), yet `extract_video_id` returns the
identifier, because Python's `$` also matches just before a trailing
newline. -/
theorem extract_video_id_newline_cex :
    extract_video_id "vid [dQw4w9WgXcQ].mp4\n" = some "dQw4w9WgXcQ" ∧
    ¬∃ idStr : String, ShapeL "vid [dQw4w9WgXcQ].mp4\n".data idStr.data := by
  constructor
  · decide
  · rintro ⟨idStr, hsh⟩
    exact shapeL_getLast hsh (by decide)

theorem fsProcessOne_eq (env : Env) (st : MediaOrganizerStats × FSState) (name : String) :
    fsProcessOne env st name = applyOutcome (fileOutcome env name) st name := by
  unfold fsProcessOne fileOutcome
  rcases hex : extract_video_id name with _ | vid
  · rfl
  · rcases hmeta : env.metadata vid with _ | ch
    · simp only [hmeta]
      rfl
    · simp only [hmeta]
      by_cases hch : ch.isEmpty = true
      · simp only [if_pos hch]
        rfl
      · simp only [if_neg hch]
        by_cases hdir : env.dirCreateOk (sanitize_directory_name ch) = true
        · simp only [if_pos hdir]
          by_cases hmv : env.moveOk name = true
          · simp only [if_pos hmv]
            rfl
          · simp only [if_neg hmv]
            rfl
        · simp only [if_neg hdir]
          rfl

theorem applyOutcome_pf (o : FileOutcome) (st : MediaOrganizerStats × FSState) (name : String) :
    (applyOutcome o st name).1.processed_files + (applyOutcome o st name).1.failed_files =
      st.1.processed_files + st.1.failed_files + 1 := by
  cases o <;>
    simp [applyOutcome, MediaOrganizerStats.add_error, MediaOrganizerStats.add_channel,
      MediaOrganizerStats.increment_processed, MediaOrganizerStats.increment_failed] <;>
    omega

theorem applyOutcome_total (o : FileOutcome) (st : MediaOrganizerStats × FSState) (name : String) :
    (applyOutcome o st name).1.total_files = st.1.total_files := by
  cases o <;>
    simp [applyOutcome, MediaOrganizerStats.add_error, MediaOrganizerStats.add_channel,
      MediaOrganizerStats.increment_processed, MediaOrganizerStats.increment_failed]

theorem applyOutcome_failed_errors (o : FileOutcome) (st : MediaOrganizerStats × FSState)
    (name : String) (h : st.1.failed_files = st.1.errors.length) :
    (applyOutcome o st name).1.failed_files = (applyOutcome o st name).1.errors.length := by
  cases o <;>
    simp [applyOutcome, MediaOrganizerStats.add_error, MediaOrganizerStats.add_channel,
      MediaOrganizerStats.increment_processed, MediaOrganizerStats.increment_failed, h]

theorem fsRunFrom_pf (env : Env) (st : MediaOrganizerStats × FSState) (files : List String) :
    (fsRunFrom env st files).1.processed_files + (fsRunFrom env st files).1.failed_files =
      st.1.processed_files + st.1.failed_files + files.length := by
  induction files generalizing st with
  | nil => simp [fsRunFrom]
  | cons f rest ih =>
    show (fsRunFrom env (fsProcessOne env st f) rest).1.processed_files +
        (fsRunFrom env (fsProcessOne env st f) rest).1.failed_files = _
    rw [ih (fsProcessOne env st f), fsProcessOne_eq, applyOutcome_pf]
    simp
    omega

theorem fsRunFrom_total (env : Env) (st : MediaOrganizerStats × FSState) (files : List String) :
    (fsRunFrom env st files).1.total_files = st.1.total_files := by
  induction files generalizing st with
  | nil => rfl
  | cons f rest ih =>
    show (fsRunFrom env (fsProcessOne env st f) rest).1.total_files = _
    rw [ih (fsProcessOne env st f), fsProcessOne_eq, applyOutcome_total]

theorem fsRunFrom_failed_errors (env : Env) (st : MediaOrganizerStats × FSState)
    (files : List String) (h : st.1.failed_files = st.1.errors.length) :
    (fsRunFrom env st files).1.failed_files = (fsRunFrom env st files).1.errors.length := by
  induction files generalizing st with
  | nil => exact h
  | cons f rest ih =>
    show (fsRunFrom env (fsProcessOne env st f) rest).1.failed_files = _
    exact ih (fsProcessOne env st f)
      (by rw [fsProcessOne_eq]; exact applyOutcome_failed_errors _ _ _ h)

/-- Claim C3: at every point during processing (after any number `k` of
files), `succeeded + failed` equals the number of files handled so far, hence
is at most the number of discovered files; at completion it equals
`total_files`, the number of discovered files. -/
theorem run_conservation (env : Env) (fs0 : FSState) (k : Nat) :
    (partialStats env fs0 k).processed_files + (partialStats env fs0 k).failed_files =
      min k (find_media_files fs0).length ∧
    (partialStats env fs0 k).processed_files + (partialStats env fs0 k).failed_files ≤
      (partialStats env fs0 k).total_files ∧
    (process_media_files env fs0).1.processed_files +
        (process_media_files env fs0).1.failed_files =
      (process_media_files env fs0).1.total_files ∧
    (process_media_files env fs0).1.total_files = (find_media_files fs0).length := by
  have hmin : (partialStats env fs0 k).processed_files + (partialStats env fs0 k).failed_files =
      min k (find_media_files fs0).length := by
    unfold partialStats
    rw [fsRunFrom_pf]
    simp [startStats]
  have htot : (partialStats env fs0 k).total_files =
      (find_media_files fs0).length := by
    unfold partialStats
    rw [fsRunFrom_total]
    rfl
  refine ⟨hmin, ?_, ?_, ?_⟩
  · rw [hmin, htot]
    exact Nat.min_le_right _ _
  · unfold process_media_files
    by_cases hnil : (find_media_files fs0).isEmpty = true
    · rw [if_pos hnil]
      rfl
    · rw [if_neg hnil]
      rw [fsRunFrom_pf, fsRunFrom_total]
      simp [startStats]
  · unfold process_media_files
    by_cases hnil : (find_media_files fs0).isEmpty = true
    · rw [if_pos hnil]
      have := List.isEmpty_iff.mp hnil
      rw [this]
      rfl
    · rw [if_neg hnil]
      rw [fsRunFrom_total]
      rfl

/-- Claim C10: at every point during a run (after any number `k` of files)
and hence at completion, the failed-file counter equals the number of error
records. -/
theorem failed_eq_errors_length (env : Env) (fs0 : FSState) (k : Nat) :
    (partialStats env fs0 k).failed_files = (partialStats env fs0 k).errors.length ∧
    (process_media_files env fs0).1.failed_files =
      (process_media_files env fs0).1.errors.length := by
  constructor
  · unfold partialStats
    exact fsRunFrom_failed_errors _ _ _ (by simp [startStats])
  · unfold process_media_files
    by_cases hnil : (find_media_files fs0).isEmpty = true
    · rw [if_pos hnil]
      rfl
    · rw [if_neg hnil]
      exact fsRunFrom_failed_errors _ _ _ (by simp [startStats])

theorem applyOutcome_kinds (o : FileOutcome) (st : MediaOrganizerStats × FSState)
    (name : String)
    (h : st.1.errors.all (fun e => errorKinds.contains e.error_type) = true) :
    (applyOutcome o st name).1.errors.all (fun e => errorKinds.contains e.error_type) = true := by
  cases o <;>
    simp_all [applyOutcome, MediaOrganizerStats.add_error, MediaOrganizerStats.add_channel,
      MediaOrganizerStats.increment_processed, MediaOrganizerStats.increment_failed,
      errorKinds]

theorem fsRunFrom_kinds (env : Env) (st : MediaOrganizerStats × FSState)
    (files : List String)
    (h : st.1.errors.all (fun e => errorKinds.contains e.error_type) = true) :
    (fsRunFrom env st files).1.errors.all (fun e => errorKinds.contains e.error_type) = true := by
  induction files generalizing st with
  | nil => exact h
  | cons f rest ih =>
    show (fsRunFrom env (fsProcessOne env st f) rest).1.errors.all _ = true
    exact ih (fsProcessOne env st f)
      (by rw [fsProcessOne_eq]; exact applyOutcome_kinds _ _ _ h)

/-- Claim C8 (amended): every error record of a run has one of the four kinds
the code appends — `ID_EXTRACTION_FAILED`, `METADATA_FETCH_FAILED`,
`DIRECTORY_CREATION_FAILED`, `FILE_MOVE_FAILED` — and every per-file error is
absorbed at the file level: every discovered file still reaches exactly one
terminal outcome (`succeeded + failed` covers the whole batch). -/
theorem error_kinds_closed (env : Env) (fs0 : FSState) :
    (process_media_files env fs0).1.errors.all
        (fun e => errorKinds.contains e.error_type) = true ∧
    (process_media_files env fs0).1.processed_files +
        (process_media_files env fs0).1.failed_files =
      (find_media_files fs0).length := by
  constructor
  · unfold process_media_files
    by_cases hnil : (find_media_files fs0).isEmpty = true
    · rw [if_pos hnil]
      rfl
    · rw [if_neg hnil]
      exact fsRunFrom_kinds _ _ _ (by simp [startStats])
  · unfold process_media_files
    by_cases hnil : (find_media_files fs0).isEmpty = true
    · rw [if_pos hnil]
      rw [List.isEmpty_iff.mp hnil]
      rfl
    · rw [if_neg hnil]
      rw [fsRunFrom_pf]
      simp [startStats]

/-- Counterexample to claim C8 as stated: the error kind the code records for
a failed directory creation is the string `"DIRECTORY_CREATION_FAILED"`, which
is not among the four spec-defined kind names (the spec writes
`DIR_CREATION_FAILED`); likewise the code writes `"FILE_MOVE_FAILED"`, not
`MOVE_FAILED`. -/
theorem error_kind_name_cex :
    (process_media_files envDirFail fsA).1.errors.map ErrorRecord.error_type =
      ["DIRECTORY_CREATION_FAILED"] ∧
    ("DIRECTORY_CREATION_FAILED" : String) ∉
      (["ID_EXTRACTION_FAILED", "METADATA_FETCH_FAILED",
        "DIR_CREATION_FAILED", "MOVE_FAILED"] : List String) := by
  constructor
  · decide
  · decide

/-- Claim C4 (amended): when the metadata lookup yields no channel name
(`None` or an empty string, both falsy in Python), the file is marked failed
with a `METADATA_FETCH_FAILED` error record and the loop continues with the
remaining files; no `"Unknown_Channel"` fallback owner is used. -/
theorem metadata_failure_behavior (env : Env) (st : MediaOrganizerStats × FSState)
    (name vid : String)
    (hex : extract_video_id name = some vid)
    (hmeta : env.metadata vid = none ∨ env.metadata vid = some "") :
    fsProcessOne env st name =
      ((st.1.add_error name "METADATA_FETCH_FAILED"
          "Could not fetch channel metadata").increment_failed, st.2) ∧
    ∀ rest, fsRunFrom env st (name :: rest) =
      fsRunFrom env ((st.1.add_error name "METADATA_FETCH_FAILED"
          "Could not fetch channel metadata").increment_failed, st.2) rest := by
  have hout : fileOutcome env name = FileOutcome.metaFail := by
    unfold fileOutcome
    rcases hmeta with hm | hm
    · rw [hex]
      simp only [hm]
    · rw [hex]
      simp only [hm]
      rfl
  have hstep : fsProcessOne env st name =
      ((st.1.add_error name "METADATA_FETCH_FAILED"
          "Could not fetch channel metadata").increment_failed, st.2) := by
    rw [fsProcessOne_eq, hout]
    rfl
  refine ⟨hstep, ?_⟩
  intro rest
  show List.foldl (fsProcessOne env) (fsProcessOne env st name) rest = _
  rw [hstep]
  rfl

/-- Witness for `metadata_failure_behavior` at a concrete input. -/
theorem metadata_failure_behavior_witness :
    (extract_video_id "vid [dQw4w9WgXcQ].mp4" = some "dQw4w9WgXcQ" ∧
      (envMetaFail.metadata "dQw4w9WgXcQ" = none ∨
        envMetaFail.metadata "dQw4w9WgXcQ" = some "")) ∧
    fsProcessOne envMetaFail ({}, fsA) "vid [dQw4w9WgXcQ].mp4" =
      ((({} : MediaOrganizerStats).add_error "vid [dQw4w9WgXcQ].mp4"
          "METADATA_FETCH_FAILED" "Could not fetch channel metadata").increment_failed,
        fsA) :=
  ⟨⟨by decide, Or.inl rfl⟩,
    (metadata_failure_behavior envMetaFail ({}, fsA) "vid [dQw4w9WgXcQ].mp4" "dQw4w9WgXcQ"
      (by decide) (Or.inl rfl)).1⟩

/-- Counterexample to claim C4 as stated: with every oracle except the
metadata lookup succeeding, the single file is marked failed (with a
`METADATA_FETCH_FAILED` record) rather than being processed under the
fallback owner `"Unknown_Channel"`; nothing is moved and no channel is
registered. -/
theorem metadata_failure_hard_fails :
    (process_media_files envMetaFail fsA).1.failed_files = 1 ∧
    (process_media_files envMetaFail fsA).1.processed_files = 0 ∧
    (process_media_files envMetaFail fsA).1.errors.map ErrorRecord.error_type =
      ["METADATA_FETCH_FAILED"] ∧
    (process_media_files envMetaFail fsA).1.channels_created = ∅ ∧
    (process_media_files envMetaFail fsA).2 = fsA := by
  refine ⟨?_, ?_, ?_, ?_, ?_⟩ <;> decide

/-- Claim C9 (amended): the owner name is registered in the run's set of
touched channels as soon as directory creation succeeds, before the move is
attempted; in particular a file whose move fails still registers its owner
name. -/
theorem channel_registered_before_move (env : Env) (st : MediaOrganizerStats × FSState)
    (name vid ch : String)
    (hex : extract_video_id name = some vid)
    (hmeta : env.metadata vid = some ch)
    (hch : ch.isEmpty = false)
    (hdir : env.dirCreateOk (sanitize_directory_name ch) = true)
    (hmv : env.moveOk name = false) :
    fsProcessOne env st name =
      (((st.1.add_channel ch).add_error name "FILE_MOVE_FAILED"
          "Could not move file to channel directory").increment_failed,
        create_channel_directory st.2 (sanitize_directory_name ch)) ∧
    ch ∈ (fsProcessOne env st name).1.channels_created := by
  have hout : fileOutcome env name = FileOutcome.moveFail ch := by
    unfold fileOutcome
    rw [hex]
    simp only [hmeta, hch, hdir, hmv]
    rfl
  have hstep : fsProcessOne env st name =
      (((st.1.add_channel ch).add_error name "FILE_MOVE_FAILED"
          "Could not move file to channel directory").increment_failed,
        create_channel_directory st.2 (sanitize_directory_name ch)) := by
    rw [fsProcessOne_eq, hout]
    rfl
  refine ⟨hstep, ?_⟩
  rw [hstep]
  simp [MediaOrganizerStats.add_channel, MediaOrganizerStats.add_error,
    MediaOrganizerStats.increment_failed]

/-- Witness for `channel_registered_before_move` at a concrete input. -/
theorem channel_registered_before_move_witness :
    (extract_video_id "vid [dQw4w9WgXcQ].mp4" = some "dQw4w9WgXcQ" ∧
      envMoveFail.metadata "dQw4w9WgXcQ" = some "Chan A" ∧
      ("Chan A" : String).isEmpty = false ∧
      envMoveFail.dirCreateOk (sanitize_directory_name "Chan A") = true ∧
      envMoveFail.moveOk "vid [dQw4w9WgXcQ].mp4" = false) ∧
    "Chan A" ∈ (fsProcessOne envMoveFail ({}, fsA) "vid [dQw4w9WgXcQ].mp4").1.channels_created :=
  ⟨⟨by decide, rfl, by decide, rfl, rfl⟩,
    (channel_registered_before_move envMoveFail ({}, fsA) "vid [dQw4w9WgXcQ].mp4"
      "dQw4w9WgXcQ" "Chan A" (by decide) rfl (by decide) rfl rfl).2⟩

/-- Counterexample to claim C9 as stated: in a run whose single file reaches
the move and the move fails (terminal state `FILE_MOVE_FAILED`, nothing
succeeded), the owner name has nevertheless been added to the set of touched
channels, because the source registers the channel before attempting the
move. -/
theorem channel_added_despite_move_failure :
    (process_media_files envMoveFail fsA).1.channels_created = {"Chan A"} ∧
    (process_media_files envMoveFail fsA).1.errors.map ErrorRecord.error_type =
      ["FILE_MOVE_FAILED"] ∧
    (process_media_files envMoveFail fsA).1.processed_files = 0 := by
  refine ⟨?_, ?_, ?_⟩ <;> decide

theorem dry_step_fs (env : Env) (st : MediaOrganizerStats × FSState) (name : String) :
    (fsProcessOneDry env st name).2 = st.2 := by
  unfold fsProcessOneDry
  rcases hex : extract_video_id name with _ | vid
  · rfl
  · rcases hmeta : env.metadata vid with _ | ch
    · simp only [hmeta]
    · simp only [hmeta]
      by_cases hch : ch.isEmpty = true
      · rw [if_pos hch]
      · rw [if_neg hch]

theorem dry_step_processed (env : Env) (st : MediaOrganizerStats × FSState) (name : String) :
    (fsProcessOneDry env st name).1.processed_files =
      st.1.processed_files + (if fileWouldMove env name then 1 else 0) := by
  unfold fsProcessOneDry fileWouldMove
  rcases hex : extract_video_id name with _ | vid
  · simp [MediaOrganizerStats.add_error, MediaOrganizerStats.increment_failed]
  · rcases hmeta : env.metadata vid with _ | ch
    · simp only [hmeta]
      simp [MediaOrganizerStats.add_error, MediaOrganizerStats.increment_failed]
    · simp only [hmeta]
      by_cases hch : ch.isEmpty = true
      · simp [hch, MediaOrganizerStats.add_error, MediaOrganizerStats.increment_failed]
      · simp [hch, MediaOrganizerStats.add_channel, MediaOrganizerStats.increment_processed]

theorem dry_fold_fs (env : Env) (st : MediaOrganizerStats × FSState) (files : List String) :
    (files.foldl (fsProcessOneDry env) st).2 = st.2 := by
  induction files generalizing st with
  | nil => rfl
  | cons f rest ih =>
    show (rest.foldl (fsProcessOneDry env) (fsProcessOneDry env st f)).2 = st.2
    rw [ih (fsProcessOneDry env st f), dry_step_fs]

theorem dry_fold_processed (env : Env) (st : MediaOrganizerStats × FSState)
    (files : List String) :
    (files.foldl (fsProcessOneDry env) st).1.processed_files =
      st.1.processed_files + files.countP (fileWouldMove env) := by
  induction files generalizing st with
  | nil => simp
  | cons f rest ih =>
    show (rest.foldl (fsProcessOneDry env) (fsProcessOneDry env st f)).1.processed_files = _
    rw [ih (fsProcessOneDry env st f), dry_step_processed, List.countP_cons]
    cases hb : fileWouldMove env f
    · simp [hb]
    · simp [hb]
      omega

/-- Claim C7 (spec-modelled): a dry-run invocation performs no filesystem
mutation whatsoever — the filesystem state after the run is the input state —
while the statistics count as succeeded exactly the files that would have
been moved (id extracted and owner resolved). -/
theorem dry_run_no_mutation (env : Env) (fs0 : FSState) :
    (process_media_files_dry env fs0).2 = fs0 ∧
    (process_media_files_dry env fs0).1.processed_files =
      (find_media_files fs0).countP (fileWouldMove env) := by
  unfold process_media_files_dry
  by_cases hnil : (find_media_files fs0).isEmpty = true
  · rw [if_pos hnil]
    refine ⟨rfl, ?_⟩
    rw [List.isEmpty_iff.mp hnil]
    rfl
  · rw [if_neg hnil]
    refine ⟨dry_fold_fs _ _ _, ?_⟩
    rw [dry_fold_processed]
    simp [startStats]

example : extract_video_id "pre\nfix [dQw4w9WgXcQ].mp4" = some "dQw4w9WgXcQ" := by decide

example : extract_video_id "vid [dQw4w9WgXcQ].mp4\n\n" = none := by decide

example : extract_video_id "v [aaaaaaaaaa\u212A].mp4" = some "aaaaaaaaaa\u212A" := by decide

example : extract_video_id "v [aaaaaaaaaa\u0130].mp4" = some "aaaaaaaaaa\u0130" := by decide

example : extract_video_id "v [aaaaaaaaaa\u0131].mp4" = some "aaaaaaaaaa\u0131" := by decide

example : extract_video_id "v [aaaaaaaaaa\u017F].mp4" = some "aaaaaaaaaa\u017F" := by decide

example : extract_video_id "v [aaaaaaaaaaa].m\u212Av" = some "aaaaaaaaaaa" := by decide

example : extract_video_id "v [aaaaaaaaaaa].av\u0131" = some "aaaaaaaaaaa" := by decide

example : extract_video_id "v [aaaaaaaaaaa].opu\u017F" = some "aaaaaaaaaaa" := by decide

example : extract_video_id "v [aaaaaaaaaaß].mp4" = none := by decide

example : extract_video_id "v [aaaaaaaaaaa].w\u212Bv" = none := by decide
